import Mathlib

/-!
Shallow embedding of the charm analysis engine (`charmcraft/linters.py`):
the shared analysis state, the Language and Framework checkers, and the
`analyze` driver, together with models of the filesystem and of the Python
standard-library services the code calls (`shlex.split`, `ast` import
scanning, `os.access`, `pathlib` suffix handling).  Stateful code is
embedded by explicit state passing; fallible code returns `Except`.
-/

deriving instance DecidableEq for Except

namespace Charm

/-- Kinds of Python exceptions the embedded code can raise. -/
inductive PyErr
  | keyError (k : String)
  | attributeError
  | indexError
  | valueError
  | runtimeError
  | typeError
  | isADirectoryError
  | notADirectoryError
  | commandError
  deriving DecidableEq, Repr

/-- One value of a parsed YAML mapping: a string, or any non-string value,
which the metadata schema rejects for its string fields. -/
inductive YVal
  | ystr (s : String)
  | yother
  deriving DecidableEq, Repr

/-- An import-bearing node of a parsed Python module, in `ast.walk` order:
`imp names` is an `ast.Import` with its dotted module-name strings, and
`impFrom module` an `ast.ImportFrom` whose `module` is `none` for relative
imports such as `from . import x`. -/
inductive AstNode
  | imp (names : List String)
  | impFrom (module : Option String)
  deriving DecidableEq, Repr

/-- A regular file: decoded text content, permission bits, and the results
the Python parsers would give for it (`pyAst = none` models a
`SyntaxError` from `ast.parse`, `yaml = none` a corrupt YAML document). -/
structure FileInfo where
  content : String
  readable : Bool
  decodable : Bool
  executable : Bool
  pyAst : Option (List AstNode)
  yaml : Option (List (String × YVal))
  deriving DecidableEq, Repr

/-- A directory: the names of its children and its execute (search) bit. -/
structure DirInfo where
  children : List String
  executable : Bool
  deriving DecidableEq, Repr

/-- A filesystem entry. -/
inductive Entry
  | file (fi : FileInfo)
  | dir (di : DirInfo)
  deriving DecidableEq, Repr

/-- The filesystem is a finite map from path strings to entries. -/
abbrev FS := List (String × Entry)

/-- A value stored in the shared analysis state: a string (result tags and
paths) or Python `None`. -/
inductive SVal
  | vstr (s : String)
  | vnone
  deriving DecidableEq, Repr

/-- `shared_state`: a mapping from checker name to a mapping of auxiliary
keys, embedded as an association list threaded through the functions. -/
abbrev SState := List (String × List (String × SVal))

/-- Association-list lookup (Python dict read). -/
def alookup {α : Type} (k : String) : List (String × α) → Option α
  | [] => none
  | (k₂, v) :: rest => if k₂ = k then some v else alookup k rest

/-- Python dict assignment on an inner mapping: update in place, else append. -/
def setInner (k : String) (v : SVal) : List (String × SVal) → List (String × SVal)
  | [] => [(k, v)]
  | (k₂, v₂) :: rest => if k₂ = k then (k, v) :: rest else (k₂, v₂) :: setInner k v rest

/-- `shared_state[outer][inner] = v` with `defaultdict(dict)` semantics:
a missing outer entry is created. -/
def setShared (st : SState) (o i : String) (v : SVal) : SState :=
  match st with
  | [] => [(o, [(i, v)])]
  | (k₂, d) :: rest => if k₂ = o then (o, setInner i v d) :: rest else (k₂, d) :: setShared rest o i v

/-- `shared_state[name]` as a read: the `defaultdict` hands back an empty
inner mapping when the name is absent. -/
def getOuter (st : SState) (k : String) : List (String × SVal) :=
  (alookup k st).getD []

/-- Split a character list at every occurrence of `sep` (Python
`str.split(sep)` for a one-character separator): accumulator variant. -/
def splitCharAux (sep : Char) : List Char → List Char → List (List Char)
  | [], cur => [cur.reverse]
  | c :: rest, cur => if c = sep then cur.reverse :: splitCharAux sep rest [] else splitCharAux sep rest (c :: cur)

/-- Python `str.split(sep)` for a one-character separator. -/
def splitChar (sep : Char) (l : List Char) : List (List Char) := splitCharAux sep l []

/-- Python `name.split(".")` on a module-name string. -/
def splitDots (s : String) : List String := (splitChar '.' s.data).map String.mk

/-- Last element of a list, if any (Python `seq[-1]` succeeds exactly here). -/
def lastElem {α : Type} : List α → Option α
  | [] => none
  | [a] => some a
  | _ :: a :: rest => lastElem (a :: rest)

/-- Last element with a default. -/
def lastElemD {α : Type} (l : List α) (d : α) : α := (lastElem l).getD d

/-- Boolean prefix test on character lists (Python `str.startswith`). -/
def listIsPrefixOf : List Char → List Char → Bool
  | [], _ => true
  | _ :: _, [] => false
  | a :: as, b :: bs => a == b && listIsPrefixOf as bs

/-- The whitespace characters of `shlex` (space, tab, carriage return, newline). -/
def shWhite (c : Char) : Bool :=
  c == ' ' || c == Char.ofNat 9 || c == Char.ofNat 13 || c == Char.ofNat 10

/-- Whitespace for Python `str.strip()` (the shlex set plus vertical tab and
form feed). -/
def pyIsSpace (c : Char) : Bool := shWhite c || c == Char.ofNat 11 || c == Char.ofNat 12

/-- A line is blank when `line.strip()` is empty. -/
def isBlankLine (l : List Char) : Bool := l.all pyIsSpace

/-- The last line of the file for which `line.strip()` is truthy. -/
def lastNonBlank : List (List Char) → Option (List Char)
  | [] => none
  | l :: rest =>
    match lastNonBlank rest with
    | some r => some r
    | none => if isBlankLine l then none else some l

/-- Lexer modes of `shlex` in POSIX mode: outside quotes, inside single
quotes, inside double quotes. -/
inductive ShMode
  | out
  | sq
  | dq
  deriving DecidableEq, Repr

/-- Worker for `shlex.split`: mode, remaining input, current token
(reversed), whether a token has started, completed tokens (reversed).
Raises `ValueError` on an unclosed quotation or a trailing escape
character, as `shlex` does. -/
def shlexAux : ShMode → List Char → List Char → Bool → List (List Char) → Except PyErr (List (List Char))
  | .out, [], tok, started, acc =>
    .ok (if started then (tok.reverse :: acc).reverse else acc.reverse)
  | .out, c :: rest, tok, started, acc =>
    if shWhite c then
      if started then shlexAux .out rest [] false (tok.reverse :: acc)
      else shlexAux .out rest [] false acc
    else if c = Char.ofNat 39 then shlexAux .sq rest tok true acc
    else if c = Char.ofNat 34 then shlexAux .dq rest tok true acc
    else if c = Char.ofNat 92 then
      match rest with
      | [] => .error .valueError
      | c₂ :: r₂ =>
        if c₂ = Char.ofNat 10 then shlexAux .out r₂ tok started acc
        else shlexAux .out r₂ (c₂ :: tok) true acc
    else shlexAux .out rest (c :: tok) true acc
  | .sq, [], _, _, _ => .error .valueError
  | .sq, c :: rest, tok, _, acc =>
    if c = Char.ofNat 39 then shlexAux .out rest tok true acc
    else shlexAux .sq rest (c :: tok) true acc
  | .dq, [], _, _, _ => .error .valueError
  | .dq, c :: rest, tok, _, acc =>
    if c = Char.ofNat 34 then shlexAux .out rest tok true acc
    else if c = Char.ofNat 92 then
      match rest with
      | [] => .error .valueError
      | c₂ :: r₂ =>
        if c₂ = Char.ofNat 34 || c₂ = Char.ofNat 92 then shlexAux .dq r₂ (c₂ :: tok) true acc
        else shlexAux .dq r₂ (c₂ :: Char.ofNat 92 :: tok) true acc
    else shlexAux .dq rest (c :: tok) true acc

/-- `shlex.split(line)`: POSIX shell word splitting. -/
def shlexSplit (l : List Char) : Except PyErr (List (List Char)) :=
  shlexAux .out l [] false []

/-- `pathlib` path joining: `base / s` (an empty part is dropped). -/
def pathJoin (b s : String) : String := if s = "" then b else b ++ "/" ++ s

/-- Chars strictly after the first occurrence of a dot, reversed scan
(`none` when there is no dot). -/
def takeUntilDot : List Char → Option (List Char)
  | [] => none
  | c :: rest => if c = '.' then some [] else (takeUntilDot rest).map (fun l => c :: l)

/-- `pathlib.PurePath(p).suffix`: the extension of the final component,
empty for names with no dot, a leading dot, or a trailing dot. -/
def pySuffix (p : String) : String :=
  let name := lastElemD (splitChar '/' p.data) []
  match takeUntilDot name.reverse with
  | none => ""
  | some ext =>
    if ext.length = 0 then ""
    else if ext.length + 1 = name.length then ""
    else String.mk ('.' :: ext.reverse)

/-- `os.access(p, os.X_OK)`: the execute bit of a file, the search bit of a
directory, false for a missing path. -/
def accessX (fs : FS) (p : String) : Bool :=
  match alookup p fs with
  | some (Entry.file fi) => fi.executable
  | some (Entry.dir di) => di.executable
  | none => false

/-- `p.exists() and p.is_dir()`. -/
def isDirF (fs : FS) (p : String) : Bool :=
  match alookup p fs with
  | some (Entry.dir _) => true
  | _ => false

/-- Opening a path with `open("rt", encoding="utf8")` and iterating its
lines: `none` models the `IOError` (missing file, unreadable file, or a
directory) and `UnicodeDecodeError` cases, all of which `Language.run`
catches. -/
def readDispatchLines (fs : FS) (p : String) : Option (List (List Char)) :=
  match alookup p fs with
  | none => none
  | some (Entry.dir _) => none
  | some (Entry.file fi) =>
    if fi.readable && fi.decodable then some (splitChar (Char.ofNat 10) fi.content.data)
    else none

def URL_LANGUAGE : String := "https://juju.is/docs/sdk/charmcraft-analyze#heading--language"

def TEXT_LANGUAGE : String := "The charm is written with Python."

/-- Tail of `Language.run` once `entrypoint_str` is known: resolve it
against the base directory, test the `.py` suffix and the execute bit, and
on success record the entry point in the shared state. -/
def languageFinish (fs : FS) (basedir : String) (st : SState) (epStr : String) :
    Except PyErr (String × SState) :=
  if pySuffix (pathJoin basedir epStr) = ".py" ∧ accessX fs (pathJoin basedir epStr) = true then
    .ok ("python", setShared st "language" "entrypoint" (SVal.vstr (pathJoin basedir epStr)))
  else .ok ("unknown", st)

/-- `Language.run`: read the dispatch file (failures of opening or decoding
are caught and give `unknown`), take the last shell token of the last
non-blank line as the entry point, and apply `languageFinish`.  A
`ValueError` from `shlex.split` is not caught and propagates. -/
def languageRun (fs : FS) (basedir : String) (st : SState) : Except PyErr (String × SState) :=
  match readDispatchLines fs (pathJoin basedir "dispatch") with
  | none => .ok ("unknown", st)
  | some lines =>
    match lastNonBlank lines with
    | none => languageFinish fs basedir st ""
    | some l =>
      match shlexSplit l with
      | .error e => .error e
      | .ok toks =>
        match lastElem toks with
        | none => .error .indexError
        | some t => languageFinish fs basedir st (String.mk t)

def URL_FRAMEWORK : String := "https://juju.is/docs/sdk/charmcraft-analyze#heading--framework"

def TEXT_OPERATOR : String := "The charm is based on the Operator Framework."

def TEXT_REACTIVE : String := "The charm is based on the Reactive Framework."

def TEXT_NO_FRAMEWORK : String := "The charm is not based on any known Framework."

/-- `Framework.result_texts`: description selected by the stored result. -/
def result_texts : List (String × String) :=
  [("operator", TEXT_OPERATOR), ("reactive", TEXT_REACTIVE), ("unknown", TEXT_NO_FRAMEWORK)]

/-- The `Framework.text` property: `RuntimeError` before `run` has stored a
result, afterwards the lookup in `result_texts`. -/
def frameworkText (result : Option String) : Except PyErr String :=
  match result with
  | none => .error .runtimeError
  | some r =>
    match alookup r result_texts with
    | some t => .ok t
    | none => .error (.keyError r)

/-- The consumer loop over one `ast.Import` node's names: the generator
yields each dotted name split at the dots, and the caller returns at the
first name its predicate accepts.  The predicate itself may raise. -/
def firstMatch (pred : List String → Except PyErr Bool) : List String → Except PyErr Bool
  | [] => .ok false
  | n :: ns =>
    match pred (splitDots n) with
    | .error e => .error e
    | .ok true => .ok true
    | .ok false => firstMatch pred ns

/-- The consumer loop over `Framework._get_imports`: walk the import nodes
in order; an `ast.Import` yields each of its names, an `ast.ImportFrom`
yields `node.module.split(".")` — raising `AttributeError` when `module`
is `None` (a relative import), since `None` has no `split`. -/
def scanImports (pred : List String → Except PyErr Bool) : List AstNode → Except PyErr Bool
  | [] => .ok false
  | AstNode.imp names :: rest =>
    match firstMatch pred names with
    | .error e => .error e
    | .ok true => .ok true
    | .ok false => scanImports pred rest
  | AstNode.impFrom none :: _ => .error .attributeError
  | AstNode.impFrom (some m) :: rest =>
    match pred (splitDots m) with
    | .error e => .error e
    | .ok true => .ok true
    | .ok false => scanImports pred rest

/-- `Framework._get_imports` composed with its consumer: an unreadable or
missing file yields no imports, a `SyntaxError` from `ast.parse` is caught
and yields no imports, a directory raises `IsADirectoryError` from
`read_bytes` (not caught), and otherwise the import nodes are scanned. -/
def getImportsScan (fs : FS) (p : String) (pred : List String → Except PyErr Bool) :
    Except PyErr Bool :=
  match alookup p fs with
  | none => .ok false
  | some (Entry.dir _) => .error .isADirectoryError
  | some (Entry.file fi) =>
    if fi.readable = false then .ok false
    else
      match fi.pyAst with
      | none => .ok false
      | some nodes => scanImports pred nodes

/-- `import_parts[0] == "ops"` on a yielded import. -/
def opsPred (parts : List String) : Except PyErr Bool :=
  match parts with
  | [] => .error .indexError
  | p :: _ => .ok (p == "ops")

/-- `import_parts[0] == "charms" and import_parts[1] == "reactive"`: the
second index raises `IndexError` when the import has a single component
whose first part is `"charms"` (short-circuit evaluation). -/
def reactivePred (parts : List String) : Except PyErr Bool :=
  match parts with
  | [] => .error .indexError
  | [p] => if p == "charms" then .error .indexError else .ok false
  | p :: q :: _ => .ok (p == "charms" && q == "reactive")

/-- Modelled from the spec: `parse_metadata_yaml` lives in
`charmcraft/metadata.py`, which is not among the analyzed sources (only its
tests are).  Per the spec's metadata section it parses the mandatory
`metadata.yaml` descriptor at the target root and raises on a missing or
corrupt file or a `name` field that is absent or not a string; on success
the project name is available.  This model returns that name. -/
def parseMetadataName (fs : FS) (basedir : String) : Except PyErr String :=
  match alookup (pathJoin basedir "metadata.yaml") fs with
  | none => .error .commandError
  | some (Entry.dir _) => .error .commandError
  | some (Entry.file fi) =>
    if fi.readable && fi.decodable then
      match fi.yaml with
      | none => .error .commandError
      | some m =>
        match alookup "name" m with
        | some (YVal.ystr s) => .ok s
        | _ => .error .commandError
    else .error .commandError

/-- `Framework._check_operator`: the shared language result must equal
`python` (a missing `result` key raises `KeyError`), `venv/ops` must be an
existing directory, and the recorded entry point must import `ops`. -/
def checkOperator (fs : FS) (basedir : String) (st : SState) : Except PyErr Bool :=
  let langInfo := getOuter st "language"
  match alookup "result" langInfo with
  | none => .error (.keyError "result")
  | some v =>
    if v ≠ SVal.vstr "python" then .ok false
    else
      let opsdir := pathJoin (pathJoin basedir "venv") "ops"
      if isDirF fs opsdir = false then .ok false
      else
        match alookup "entrypoint" langInfo with
        | none => .error (.keyError "entrypoint")
        | some (SVal.vstr ep) => getImportsScan fs ep opsPred
        | some SVal.vnone => .error .typeError

/-- `Framework._check_reactive`: any exception from `parse_metadata_yaml`
is caught and means no detection; the `wheelhouse` directory must exist
(iterating a non-directory raises `NotADirectoryError`) and contain an
entry named with the `charms.reactive-` prefix; and
`reactive/<name>.py` must import `charms.reactive`. -/
def checkReactive (fs : FS) (basedir : String) : Except PyErr Bool :=
  match parseMetadataName fs basedir with
  | .error _ => .ok false
  | .ok name =>
    match alookup (pathJoin basedir "wheelhouse") fs with
    | none => .ok false
    | some (Entry.file _) => .error .notADirectoryError
    | some (Entry.dir di) =>
      if di.children.any (fun f => listIsPrefixOf "charms.reactive-".data f.data) = false then
        .ok false
      else getImportsScan fs (pathJoin (pathJoin basedir "reactive") (name ++ ".py")) reactivePred

/-- `Framework.run`: operator detection first, then reactive, else
`unknown`; the returned tag is also what `run` stores in `self.result`. -/
def frameworkRun (fs : FS) (basedir : String) (st : SState) : Except PyErr (String × SState) :=
  match checkOperator fs basedir st with
  | .error e => .error e
  | .ok true => .ok ("operator", st)
  | .ok false =>
    match checkReactive fs basedir with
    | .error e => .error e
    | .ok true => .ok ("reactive", st)
    | .ok false => .ok ("unknown", st)

/-- Field is present and a string in a parsed YAML mapping. -/
def ymapHasStr (m : List (String × YVal)) (k : String) : Bool :=
  match alookup k m with
  | some (YVal.ystr _) => true
  | _ => false

/-- Modelled from the spec: the `JujuMetadata` checker is referenced by the
repository's tests but its code is not among the analyzed sources.  Per the
spec's metadata-checker section it validates `metadata.yaml` against a
schema requiring `name`, `summary` and `description` as strings, reports
`ok` only when all are present and well-typed and `errors` otherwise, and
regardless of the overall outcome records the `name` field (when present
and a string, else Python `None`) into the shared state. -/
def jujuMetadataRun (fs : FS) (basedir : String) (st : SState) : Except PyErr (String × SState) :=
  let parsed : Option (List (String × YVal)) :=
    match alookup (pathJoin basedir "metadata.yaml") fs with
    | some (Entry.file fi) => if fi.readable && fi.decodable then fi.yaml else none
    | _ => none
  let nameOpt : Option String :=
    parsed.bind fun m =>
      match alookup "name" m with
      | some (YVal.ystr s) => some s
      | _ => none
  let valid : Bool :=
    match parsed with
    | some m => ymapHasStr m "name" && ymapHasStr m "summary" && ymapHasStr m "description"
    | none => false
  let st₂ := setShared st "metadata" "name"
    (match nameOpt with | some s => SVal.vstr s | none => SVal.vnone)
  .ok (if valid then "ok" else "errors", st₂)

/-- The registry entries of `CHECKERS`, in order. -/
inductive CheckerKind
  | language
  | framework
  deriving DecidableEq, Repr

/-- `CHECKERS`: the ordered checker registry. -/
def CHECKERS : List CheckerKind := [CheckerKind.language, CheckerKind.framework]

def checkerName : CheckerKind → String
  | .language => "language"
  | .framework => "framework"

def checkerUrl : CheckerKind → String
  | .language => URL_LANGUAGE
  | .framework => URL_FRAMEWORK

/-- Both registered checkers declare `check_type = CheckType.attribute`. -/
def checkerType : CheckerKind → String
  | .language => "attribute"
  | .framework => "attribute"

def runChecker : CheckerKind → FS → String → SState → Except PyErr (String × SState)
  | .language => languageRun
  | .framework => frameworkRun

/-- `checker.text` as read by `analyze` right after a successful `run`:
static for `Language`, result-selected for `Framework`. -/
def checkerText (k : CheckerKind) (result : String) : Except PyErr String :=
  match k with
  | .language => .ok TEXT_LANGUAGE
  | .framework => frameworkText (some result)

/-- The result record `CheckResult(name, result, url, check_type, text)`. -/
structure CheckResult where
  name : String
  result : String
  url : String
  check_type : String
  text : String
  deriving DecidableEq, Repr

/-- The ignore configuration `config.analysis.ignore`. -/
structure IgnoreCfg where
  attributes : List String
  linters : List String
  deriving DecidableEq, Repr

/-- One iteration of the `analyze` loop: an ignored checker is skipped with
`continue` (no result row, no shared-state write); otherwise the checker
runs, its result is written into the shared state, and a `CheckResult` is
appended.  Exceptions from `run` are not caught. -/
def analyzeStep (cfg : IgnoreCfg) (fs : FS) (basedir : String) (k : CheckerKind)
    (results : List CheckResult) (st : SState) : Except PyErr (List CheckResult × SState) :=
  if checkerType k = "attribute" ∧ checkerName k ∈ cfg.attributes then .ok (results, st)
  else if (checkerType k = "warning" ∨ checkerType k = "error") ∧ checkerName k ∈ cfg.linters then
    .ok (results, st)
  else
    match runChecker k fs basedir st with
    | .error e => .error e
    | .ok (r, st₁) =>
      let st₂ := setShared st₁ (checkerName k) "result" (SVal.vstr r)
      match checkerText k r with
      | .error e => .error e
      | .ok txt =>
        .ok (results ++ [CheckResult.mk (checkerName k) r (checkerUrl k) (checkerType k) txt], st₂)

/-- Fold of `analyzeStep` over the registry tail. -/
def analyzeGo (cfg : IgnoreCfg) (fs : FS) (basedir : String) :
    List CheckerKind → List CheckResult × SState → Except PyErr (List CheckResult × SState)
  | [], acc => .ok acc
  | k :: ks, acc =>
    match analyzeStep cfg fs basedir k acc.1 acc.2 with
    | .error e => .error e
    | .ok acc₂ => analyzeGo cfg fs basedir ks acc₂

/-- `analyze(config, basedir)`: run all checkers of `CHECKERS` in order
against the shared state in force at call time (the module-global
`shared_state` is passed in explicitly and is not reinitialized). -/
def analyze (cfg : IgnoreCfg) (fs : FS) (basedir : String) (st : SState) :
    Except PyErr (List CheckResult × SState) :=
  analyzeGo cfg fs basedir CHECKERS ([], st)

/-- The entry-point string of the language claim, read off declaratively
(this follows the claim's wording, for comparison with `languageRun`): the
dispatch file opens and decodes; when there is no non-blank line the
string stays empty, otherwise it is the last shell-split token of the last
non-blank line; `none` when the dispatch cannot be read or the shell
splitting fails. -/
def languageSpecToken (fs : FS) (basedir : String) : Option String :=
  match readDispatchLines fs (pathJoin basedir "dispatch") with
  | none => none
  | some lines =>
    match lastNonBlank lines with
    | none => some ""
    | some l =>
      match shlexSplit l with
      | .error _ => none
      | .ok toks =>
        match lastElem toks with
        | none => none
        | some t => some (String.mk t)

/-! Concrete fixtures used by the claim theorems. -/

/-- Shared state after a Language run that detected python at `/b/charm.py`. -/
def fxPythonSt : SState :=
  [("language", [("result", SVal.vstr "python"), ("entrypoint", SVal.vstr "/b/charm.py")])]

/-- Shared state after a Language run that found nothing. -/
def fxUnknownSt : SState := [("language", [("result", SVal.vstr "unknown")])]

/-- A charm tree with `venv/ops` and an entry point with the given imports. -/
def fxOpsFs (nodes : List AstNode) : FS :=
  [("/b/venv/ops", Entry.dir (DirInfo.mk [] true)),
   ("/b/charm.py", Entry.file (FileInfo.mk "" true true true (some nodes) none))]

/-- A reactive charm tree: metadata names `foobar`, the wheelhouse holds a
`charms.reactive-` entry, and `reactive/foobar.py` has the given imports. -/
def fxReactiveFs (nodes : List AstNode) : FS :=
  [("/b/metadata.yaml",
    Entry.file (FileInfo.mk "" true true false none (some [("name", YVal.ystr "foobar")]))),
   ("/b/wheelhouse", Entry.dir (DirInfo.mk ["charms.reactive-1.0.1.zip"] true)),
   ("/b/reactive/foobar.py", Entry.file (FileInfo.mk "" true true false (some nodes) none))]

/-- A dispatch file whose single line carries an unclosed double quote. -/
def fxQuoteFs : FS :=
  [("/b/dispatch",
    Entry.file (FileInfo.mk (String.mk ['x', ' ', Char.ofNat 34]) true true false none none))]

/-- A dispatch pointing at `sub.py`, which is an executable directory. -/
def fxSubDirFs : FS :=
  [("/b/dispatch", Entry.file (FileInfo.mk "run sub.py" true true false none none)),
   ("/b/sub.py", Entry.dir (DirInfo.mk [] true))]

/-- A well-formed python charm: dispatch names `charm.py`, which exists and
is executable. -/
def fxPyCharmFs : FS :=
  [("/w/dispatch", Entry.file (FileInfo.mk "charm.py" true true false none none)),
   ("/w/charm.py", Entry.file (FileInfo.mk "" true true true none none))]

/-- A python charm under `/a`, used for the two-run scenario. -/
def fxRunFs : FS :=
  [("/a/dispatch", Entry.file (FileInfo.mk "charm.py" true true false none none)),
   ("/a/charm.py", Entry.file (FileInfo.mk "" true true true none none))]

/-- Configuration that ignores nothing. -/
def fxCfg0 : IgnoreCfg := IgnoreCfg.mk [] []

/-- Configuration that ignores the `language` attribute checker. -/
def fxCfgIgnLang : IgnoreCfg := IgnoreCfg.mk ["language"] []

/-- The shared state left by `analyze fxCfg0 fxRunFs "/a"` from empty state. -/
def fxRunSt : SState :=
  [("language", [("entrypoint", SVal.vstr "/a/charm.py"), ("result", SVal.vstr "python")]),
   ("framework", [("result", SVal.vstr "unknown")])]

/-- An entry point whose only import node is a relative import. -/
def fxRelImpFs : FS :=
  [("/b/venv/ops", Entry.dir (DirInfo.mk [] true)),
   ("/b/charm.py",
    Entry.file (FileInfo.mk "" true true true (some [AstNode.impFrom none]) none))]

/-- A metadata file holding only a `name` field. -/
def fxMetaFs : FS :=
  [("/m/metadata.yaml",
    Entry.file (FileInfo.mk "" true true false none (some [("name", YVal.ystr "foobar")])))]

/-- A shared state with an unrelated stale entry. -/
def fxOtherSt : SState := [("other", [("x", SVal.vnone)])]

/-- The language result row for an unknown outcome. -/
def fxLangUnknownRow : CheckResult :=
  CheckResult.mk "language" "unknown" URL_LANGUAGE "attribute" TEXT_LANGUAGE

/-- The language result row for a python outcome. -/
def fxLangPythonRow : CheckResult :=
  CheckResult.mk "language" "python" URL_LANGUAGE "attribute" TEXT_LANGUAGE

/-- The framework result row for an unknown outcome. -/
def fxFwUnknownRow : CheckResult :=
  CheckResult.mk "framework" "unknown" URL_FRAMEWORK "attribute" TEXT_NO_FRAMEWORK

/-! Helper lemmas shared by the claim theorems. -/

/-- Writing under one outer key leaves lookups under any other key alone. -/
theorem alookup_setShared_ne (st : SState) (o i : String) (v : SVal) (k : String)
    (h : k ≠ o) : alookup k (setShared st o i v) = alookup k st := by
  induction st with
  | nil =>
    simp only [setShared, alookup]
    rw [if_neg (fun he => h he.symm)]
  | cons hd tl ih =>
    obtain ⟨k₂, d⟩ := hd
    by_cases hk : k₂ = o
    · subst hk
      simp only [setShared, if_pos rfl, alookup]
      rw [if_neg (fun he => h he.symm), if_neg (fun he => h he.symm)]
    · simp only [setShared, if_neg hk, alookup]
      by_cases hkk : k₂ = k
      · rw [if_pos hkk, if_pos hkk]
      · rw [if_neg hkk, if_neg hkk, ih]

/-- `languageFinish` only ever writes under the `language` key. -/
theorem languageFinish_keys (fs : FS) (b : String) (st : SState) (s r : String)
    (st₁ : SState) (h : languageFinish fs b st s = Except.ok (r, st₁)) (k : String)
    (hk : k ≠ "language") : alookup k st₁ = alookup k st := by
  unfold languageFinish at h
  split at h
  · simp only [Except.ok.injEq, Prod.mk.injEq] at h
    rw [← h.2, alookup_setShared_ne _ _ _ _ _ hk]
  · simp only [Except.ok.injEq, Prod.mk.injEq] at h
    rw [← h.2]

/-- `Language.run` only ever writes under the `language` key. -/
theorem languageRun_keys (fs : FS) (b : String) (st : SState) (r : String)
    (st₁ : SState) (h : languageRun fs b st = Except.ok (r, st₁)) (k : String)
    (hk : k ≠ "language") : alookup k st₁ = alookup k st := by
  unfold languageRun at h
  cases hd : readDispatchLines fs (pathJoin b "dispatch") with
  | none =>
    simp only [hd, Except.ok.injEq, Prod.mk.injEq] at h
    rw [← h.2]
  | some lines =>
    simp only [hd] at h
    cases hl : lastNonBlank lines with
    | none =>
      simp only [hl] at h
      exact languageFinish_keys fs b st _ r st₁ h k hk
    | some l =>
      simp only [hl] at h
      cases hs : shlexSplit l with
      | error e => simp only [hs] at h; exact Except.noConfusion h
      | ok toks =>
        simp only [hs] at h
        cases ht : lastElem toks with
        | none => simp only [ht] at h; exact Except.noConfusion h
        | some t =>
          simp only [ht] at h
          exact languageFinish_keys fs b st _ r st₁ h k hk

/-- `Framework.run` never writes to the shared state. -/
theorem frameworkRun_state (fs : FS) (b : String) (st : SState) (r : String)
    (st₁ : SState) (h : frameworkRun fs b st = Except.ok (r, st₁)) : st₁ = st := by
  unfold frameworkRun at h
  cases h₁ : checkOperator fs b st with
  | error e => simp only [h₁] at h; exact Except.noConfusion h
  | ok bo =>
    simp only [h₁] at h
    cases bo with
    | false =>
      simp only [] at h
      cases h₂ : checkReactive fs b with
      | error e => simp only [h₂] at h; exact Except.noConfusion h
      | ok br =>
        simp only [h₂] at h
        cases br <;>
          (simp only [Except.ok.injEq, Prod.mk.injEq] at h; exact h.2.symm)
    | true =>
      simp only [Except.ok.injEq, Prod.mk.injEq] at h
      exact h.2.symm

/-- A checker's run only writes under its own name. -/
theorem runChecker_keys (kk : CheckerKind) (fs : FS) (b : String) (st : SState)
    (r : String) (st₁ : SState) (h : runChecker kk fs b st = Except.ok (r, st₁))
    (k : String) (hk : k ≠ checkerName kk) : alookup k st₁ = alookup k st := by
  cases kk
  · exact languageRun_keys fs b st r st₁ h k hk
  · rw [frameworkRun_state fs b st r st₁ h]

/-- One `analyze` iteration only writes under the checker's own name. -/
theorem analyzeStep_keys (cfg : IgnoreCfg) (fs : FS) (b : String) (kk : CheckerKind)
    (rs : List CheckResult) (st : SState) (rs₁ : List CheckResult) (st₁ : SState)
    (h : analyzeStep cfg fs b kk rs st = Except.ok (rs₁, st₁))
    (k : String) (hk : k ≠ checkerName kk) : alookup k st₁ = alookup k st := by
  unfold analyzeStep at h
  split at h
  · simp only [Except.ok.injEq, Prod.mk.injEq] at h
    rw [← h.2]
  · split at h
    · simp only [Except.ok.injEq, Prod.mk.injEq] at h
      rw [← h.2]
    · cases hr : runChecker kk fs b st with
      | error e => simp only [hr] at h; exact Except.noConfusion h
      | ok p =>
        obtain ⟨r, st₂⟩ := p
        simp only [hr] at h
        cases htx : checkerText kk r with
        | error e => simp only [htx] at h; exact Except.noConfusion h
        | ok txt =>
          simp only [htx, Except.ok.injEq, Prod.mk.injEq] at h
          rw [← h.2, alookup_setShared_ne _ _ _ _ _ hk]
          exact runChecker_keys kk fs b st r st₂ hr k hk

/-- `languageFinish` yields `python` exactly when the resolved path passes
the suffix and execute-bit tests; the state update is then forced. -/
theorem languageFinish_python_iff (fs : FS) (b : String) (st : SState) (s : String)
    (st₁ : SState) :
    languageFinish fs b st s = Except.ok ("python", st₁) ↔
      (pySuffix (pathJoin b s) = ".py" ∧ accessX fs (pathJoin b s) = true ∧
        st₁ = setShared st "language" "entrypoint" (SVal.vstr (pathJoin b s))) := by
  unfold languageFinish
  split
  · rename_i hc
    simp only [Except.ok.injEq, Prod.mk.injEq, true_and]
    constructor
    · intro hh
      exact ⟨hc.1, hc.2, hh.symm⟩
    · intro hh
      exact hh.2.2.symm
  · rename_i hc
    constructor
    · intro hh
      simp at hh
    · intro hh
      exact absurd ⟨hh.1, hh.2.1⟩ hc

/-! Claim theorems. -/

/-- Claim C1 (code evaluated at the failing input): with the real registry
`[Language, Framework]` and a configuration whose attribute-ignore set
holds `framework`, `analyze` on an empty tree returns a single result row
— the ignored checker is skipped with `continue`, so there is no row with
an IGNORED outcome, although the registry has two checkers. -/
theorem c1_ignored_checker_dropped :
    analyze (IgnoreCfg.mk ["framework"] []) [] "/b" [] =
      Except.ok ([fxLangUnknownRow], [("language", [("result", SVal.vstr "unknown")])]) ∧
    CHECKERS.length = 2 := by
  exact ⟨by decide, by decide⟩

/-- Claim C2 (code evaluated at the failing input): a dispatch line with an
unclosed quotation makes `shlex.split` raise `ValueError` inside
`Language.run`; `analyze` has no try/except around `checker.run`, so the
exception propagates out of `analyze` instead of becoming an UNKNOWN
outcome for the attribute checker. -/
theorem c2_checker_exception_propagates :
    analyze fxCfg0 fxQuoteFs "/b" [] = Except.error PyErr.valueError ∧
    languageRun fxQuoteFs "/b" [] = Except.error PyErr.valueError := by
  exact ⟨by decide, by decide⟩

/-- Claim C3 (counterexample): the dispatch's last token names `sub.py`,
which is an executable directory, not a file — yet `Language.run` returns
`python` and records the directory as the entry point, because the code
checks only the `.py` suffix and `os.access(X_OK)`. -/
theorem c3_counterexample :
    languageRun fxSubDirFs "/b" [] =
      Except.ok ("python", [("language", [("entrypoint", SVal.vstr "/b/sub.py")])]) ∧
    alookup "/b/sub.py" fxSubDirFs = some (Entry.dir (DirInfo.mk [] true)) := by
  exact ⟨by decide, by decide⟩

/-- Claim C3 (amended): `Language.run` returns `python` and records the
resolved entry point exactly when the dispatch file opens and decodes and
the entry-point string — the last shell-split token of the last non-blank
line, or empty (resolving to the target root itself) when no non-blank
line exists — resolves to a path with the `.py` suffix that is executable
(`os.access(X_OK)`; the path need not be a regular file).  When the
dispatch is missing or unreadable, and when the resolved path fails the
suffix or execute-bit test, it returns `unknown`. -/
theorem c3_language_run_amended (fs : FS) (basedir : String) (st : SState) :
    (∀ st₁, languageRun fs basedir st = Except.ok ("python", st₁) ↔
      ∃ s, languageSpecToken fs basedir = some s ∧
        pySuffix (pathJoin basedir s) = ".py" ∧
        accessX fs (pathJoin basedir s) = true ∧
        st₁ = setShared st "language" "entrypoint" (SVal.vstr (pathJoin basedir s)))
    ∧ (readDispatchLines fs (pathJoin basedir "dispatch") = none →
        languageRun fs basedir st = Except.ok ("unknown", st))
    ∧ (∀ s, languageSpecToken fs basedir = some s →
        ¬ (pySuffix (pathJoin basedir s) = ".py" ∧ accessX fs (pathJoin basedir s) = true) →
        languageRun fs basedir st = Except.ok ("unknown", st)) := by
  refine ⟨?_, ?_, ?_⟩
  · intro st₁
    unfold languageRun languageSpecToken
    cases hd : readDispatchLines fs (pathJoin basedir "dispatch") with
    | none => simp [hd]
    | some lines =>
      simp only [hd]
      cases hl : lastNonBlank lines with
      | none =>
        simp only [hl, Option.some.injEq]
        rw [languageFinish_python_iff]
        constructor
        · intro hh
          exact ⟨"", rfl, hh⟩
        · rintro ⟨s, rfl, hh⟩
          exact hh
      | some l =>
        simp only [hl]
        cases hs : shlexSplit l with
        | error e =>
          simp only [hs]
          constructor
          · intro hh
            exact Except.noConfusion hh
          · rintro ⟨s, hse, hh⟩
            exact Option.noConfusion hse
        | ok toks =>
          simp only [hs]
          cases ht : lastElem toks with
          | none =>
            simp only [ht]
            constructor
            · intro hh
              exact Except.noConfusion hh
            · rintro ⟨s, hse, hh⟩
              exact Option.noConfusion hse
          | some t =>
            simp only [ht, Option.some.injEq]
            rw [languageFinish_python_iff]
            constructor
            · intro hh
              exact ⟨String.mk t, rfl, hh⟩
            · rintro ⟨s, rfl, hh⟩
              exact hh
  · intro hd
    unfold languageRun
    simp [hd]
  · intro s hs hns
    unfold languageSpecToken at hs
    unfold languageRun
    cases hd : readDispatchLines fs (pathJoin basedir "dispatch") with
    | none => simp only [hd] at hs; exact Option.noConfusion hs
    | some lines =>
      simp only [hd] at hs ⊢
      cases hl : lastNonBlank lines with
      | none =>
        simp only [hl, Option.some.injEq] at hs
        subst hs
        simp only [hl]
        unfold languageFinish
        rw [if_neg hns]
      | some l =>
        simp only [hl] at hs ⊢
        cases hq : shlexSplit l with
        | error e => simp only [hq] at hs; exact Option.noConfusion hs
        | ok toks =>
          simp only [hq] at hs ⊢
          cases ht : lastElem toks with
          | none => simp only [ht] at hs; exact Option.noConfusion hs
          | some t =>
            simp only [ht, Option.some.injEq] at hs
            subst hs
            simp only [ht]
            unfold languageFinish
            rw [if_neg hns]

/-- Claim C3 (witness): on a well-formed python charm the amended
characterization yields the `python` outcome with the entry point
recorded. -/
theorem c3_witness :
    languageRun fxPyCharmFs "/w" [] =
      Except.ok ("python", setShared [] "language" "entrypoint" (SVal.vstr "/w/charm.py")) :=
  ((c3_language_run_amended fxPyCharmFs "/w" []).1
      (setShared [] "language" "entrypoint" (SVal.vstr "/w/charm.py"))).mpr
    ⟨"charm.py", by decide, by decide, by decide, rfl⟩

/-- Claim C4 (code evaluated at the failing input): with language python
recorded, `venv/ops` present, and an entry point that imports `ops` but
also holds a preceding relative import (`from . import x`),
`Framework.run` raises `AttributeError` instead of returning `operator`;
without the relative import the same tree yields `operator`. -/
theorem c4_relative_import_crash :
    frameworkRun (fxOpsFs [AstNode.impFrom none, AstNode.imp ["ops"]]) "/b" fxPythonSt =
      Except.error PyErr.attributeError ∧
    frameworkRun (fxOpsFs [AstNode.imp ["logging"], AstNode.imp ["ops"]]) "/b" fxPythonSt =
      Except.ok ("operator", fxPythonSt) := by
  exact ⟨by decide, by decide⟩

/-- Claim C5 (code evaluated at the failing input): with operator detection
failing cleanly, metadata naming `foobar`, a `charms.reactive-` wheelhouse
entry, and `reactive/foobar.py` importing `charms.reactive` but holding a
preceding relative import, `Framework.run` raises `AttributeError` instead
of returning `reactive`; without the relative import it yields
`reactive`. -/
theorem c5_reactive_relative_import_crash :
    frameworkRun (fxReactiveFs [AstNode.impFrom none, AstNode.imp ["charms.reactive"]]) "/b"
        fxUnknownSt = Except.error PyErr.attributeError ∧
    frameworkRun (fxReactiveFs [AstNode.imp ["charms.reactive"]]) "/b" fxUnknownSt =
      Except.ok ("reactive", fxUnknownSt) := by
  exact ⟨by decide, by decide⟩

/-- Claim C6: the metadata checker reports `errors` on a descriptor with
only a `name` field yet still records the name into the shared state; on a
missing descriptor it reports `errors` and records Python `None`. -/
theorem c6_metadata_records_name :
    (∀ (fs : FS) (b : String) (st : SState) (fi : FileInfo)
        (m : List (String × YVal)) (n : String),
      alookup (pathJoin b "metadata.yaml") fs = some (Entry.file fi) →
      fi.readable = true → fi.decodable = true → fi.yaml = some m →
      alookup "name" m = some (YVal.ystr n) →
      alookup "summary" m = none →
      alookup "description" m = none →
      jujuMetadataRun fs b st = Except.ok ("errors", setShared st "metadata" "name" (SVal.vstr n)))
    ∧ (∀ (fs : FS) (b : String) (st : SState),
      alookup (pathJoin b "metadata.yaml") fs = none →
      jujuMetadataRun fs b st = Except.ok ("errors", setShared st "metadata" "name" SVal.vnone)) := by
  constructor
  · intro fs b st fi m n hf hr hd hy hn hs hde
    simp [jujuMetadataRun, hf, hr, hd, hy, ymapHasStr, hn, hs, hde, Option.bind]
  · intro fs b st hf
    simp [jujuMetadataRun, hf, Option.bind]

/-- Claim C6 (witness): a concrete name-only descriptor gives `errors` with
the name recorded, and a missing descriptor gives `errors` with `None`
recorded. -/
theorem c6_witness :
    jujuMetadataRun fxMetaFs "/m" [] =
      Except.ok ("errors", [("metadata", [("name", SVal.vstr "foobar")])]) ∧
    jujuMetadataRun [] "/m" [] =
      Except.ok ("errors", [("metadata", [("name", SVal.vnone)])]) := by
  constructor
  · exact c6_metadata_records_name.1 fxMetaFs "/m" []
      (FileInfo.mk "" true true false none (some [("name", YVal.ystr "foobar")]))
      [("name", YVal.ystr "foobar")] "foobar"
      (by decide) rfl rfl rfl (by decide) (by decide) (by decide)
  · exact c6_metadata_records_name.2 [] "/m" [] rfl

/-- Claim C7 (counterexample): shared state written by a first `analyze`
call is observed by a second call on a different target: after analyzing
`/a` (language python), a second run on `/b` with `language` ignored
succeeds using the stale language entry, while the same second run from a
fresh state raises `KeyError` — so the state is not reinitialized per
invocation. -/
theorem c7_counterexample :
    analyze fxCfg0 fxRunFs "/a" [] =
      Except.ok ([fxLangPythonRow, fxFwUnknownRow], fxRunSt) ∧
    analyze fxCfgIgnLang fxRunFs "/b" fxRunSt =
      Except.ok ([fxFwUnknownRow], fxRunSt) ∧
    analyze fxCfgIgnLang fxRunFs "/b" [] = Except.error (PyErr.keyError "result") := by
  exact ⟨by decide, by decide, by decide⟩

/-- Claim C7 (amended): `analyze` threads the shared state it is invoked
with instead of reinitializing it — it only writes under the names of the
checkers it runs, so entries under any other key survive every successful
invocation (and a later call can observe them). -/
theorem c7_state_persists (cfg : IgnoreCfg) (fs : FS) (b : String) (st : SState)
    (res : List CheckResult) (st₁ : SState)
    (h : analyze cfg fs b st = Except.ok (res, st₁))
    (k : String) (h₁ : k ≠ "language") (h₂ : k ≠ "framework") :
    alookup k st₁ = alookup k st := by
  simp only [analyze, CHECKERS, analyzeGo] at h
  cases ha : analyzeStep cfg fs b CheckerKind.language [] st with
  | error e => simp only [ha] at h; exact Except.noConfusion h
  | ok acc₂ =>
    obtain ⟨rs₂, st₂⟩ := acc₂
    simp only [ha] at h
    cases hb : analyzeStep cfg fs b CheckerKind.framework rs₂ st₂ with
    | error e => simp only [hb] at h; exact Except.noConfusion h
    | ok acc₃ =>
      obtain ⟨rs₃, st₃⟩ := acc₃
      simp only [hb, Except.ok.injEq, Prod.mk.injEq] at h
      rw [← h.2]
      rw [analyzeStep_keys cfg fs b CheckerKind.framework rs₂ st₂ rs₃ st₃ hb k h₂]
      exact analyzeStep_keys cfg fs b CheckerKind.language [] st rs₂ st₂ ha k h₁

/-- Claim C7 (witness): a stale entry under an unrelated key survives a
full `analyze` run. -/
theorem c7_witness :
    alookup "other"
        [("other", [("x", SVal.vnone)]),
         ("language", [("result", SVal.vstr "unknown")]),
         ("framework", [("result", SVal.vstr "unknown")])] =
      alookup "other" fxOtherSt :=
  c7_state_persists fxCfg0 [] "/bb" fxOtherSt [fxLangUnknownRow, fxFwUnknownRow]
    [("other", [("x", SVal.vnone)]),
     ("language", [("result", SVal.vstr "unknown")]),
     ("framework", [("result", SVal.vstr "unknown")])]
    (by decide) "other" (by decide) (by decide)

/-- Claim C8 (counterexample): with no `language` entry in the shared state
`Framework.run` raises `KeyError` (the `defaultdict` supplies an empty
inner mapping whose `result` lookup fails); it does not return
`unknown`. -/
theorem c8_counterexample :
    frameworkRun [] "/b" [] = Except.error (PyErr.keyError "result") ∧
    frameworkRun [] "/b" [] ≠ Except.ok ("unknown", []) := by
  exact ⟨by decide, by decide⟩

/-- Claim C8 (amended): whenever the shared state lacks a `result` entry
under `language` (in particular when the Language checker was ignored and
wrote nothing), `Framework._check_operator` raises `KeyError`, which
propagates out of `Framework.run` — the missing key is not treated as
no-information. -/
theorem c8_missing_language_raises (fs : FS) (b : String) (st : SState)
    (h : alookup "result" (getOuter st "language") = none) :
    frameworkRun fs b st = Except.error (PyErr.keyError "result") := by
  unfold frameworkRun checkOperator
  simp only [h]

/-- Claim C8 (witness): the amended statement at a concrete state with an
unrelated entry. -/
theorem c8_witness :
    frameworkRun [] "/x" [("metadata", [])] = Except.error (PyErr.keyError "result") :=
  c8_missing_language_raises [] "/x" [("metadata", [])] (by decide)

/-- Claim C9: reading `Framework.text` before `run` raises `RuntimeError`
(no silent default), and after a successful `run` it returns the
description selected by the stored outcome. -/
theorem c9_text_accessor :
    frameworkText none = Except.error PyErr.runtimeError ∧
    ∀ (fs : FS) (b : String) (st : SState) (r : String) (st₁ : SState),
      frameworkRun fs b st = Except.ok (r, st₁) →
      frameworkText (some r) =
        Except.ok (if r = "operator" then TEXT_OPERATOR
          else if r = "reactive" then TEXT_REACTIVE else TEXT_NO_FRAMEWORK) := by
  refine ⟨rfl, ?_⟩
  intro fs b st r st₁ h
  unfold frameworkRun at h
  cases h₁ : checkOperator fs b st with
  | error e => simp only [h₁] at h; exact Except.noConfusion h
  | ok bo =>
    simp only [h₁] at h
    cases bo with
    | false =>
      cases h₂ : checkReactive fs b with
      | error e => simp only [h₂] at h; exact Except.noConfusion h
      | ok br =>
        simp only [h₂] at h
        cases br with
        | false =>
          simp only [Except.ok.injEq, Prod.mk.injEq] at h
          rw [← h.1]
          decide
        | true =>
          simp only [Except.ok.injEq, Prod.mk.injEq] at h
          rw [← h.1]
          decide
    | true =>
      simp only [Except.ok.injEq, Prod.mk.injEq] at h
      rw [← h.1]
      decide

/-- Claim C9 (witness): after a concrete run with an unknown outcome the
accessor returns the no-framework description. -/
theorem c9_witness :
    frameworkText (some "unknown") = Except.ok TEXT_NO_FRAMEWORK := by
  have h := c9_text_accessor.2 [] "/b" fxUnknownSt "unknown" fxUnknownSt (by decide)
  simpa using h

/-- Claim C10: a syntactically valid entry point whose import nodes include
a relative import (an `ImportFrom` with `module = None`) makes the import
scan raise `AttributeError` — `None` has no `split` — rather than yield
imports or be treated as import-free, and `Framework.run` propagates it. -/
theorem c10_relative_import_attribute_error :
    getImportsScan fxRelImpFs "/b/charm.py" opsPred = Except.error PyErr.attributeError ∧
    frameworkRun fxRelImpFs "/b" fxPythonSt = Except.error PyErr.attributeError := by
  exact ⟨by decide, by decide⟩

end Charm
